import Mathlib

/-!
Verification of the BudgetTracker ledger (src/Budget_tracker1.py).

The Python class is shallowly embedded: numeric amounts are modelled as
rationals (exact arithmetic, with the literal 0.8 rendered as 4/5), the
expense list as a Lean `List`, and the Python dict built by
`view_spending_by_category` as an association list in insertion order.
The timestamp captured by `datetime.datetime.now()` is modelled as an
injected clock value passed to `add_expense`. Mutating methods become
state-passing functions; `add_expense` returns its boolean result paired
with the new state; the dict update that can raise `KeyError` in Python
returns `Option`.
-/

/-- One expense record: the amount/category/date dict appended by
`add_expense`, with the captured `datetime.datetime.now()` modelled as a
natural-number clock value. -/
structure Expense where
  amount : ℚ
  category : String
  date : Nat
deriving DecidableEq, Repr

/-- The state of a `BudgetTracker` instance: `income`, `expenses` and
`categories`, as set up by `__init__`. -/
structure BudgetTracker where
  income : ℚ
  expenses : List Expense
  categories : List String
deriving DecidableEq, Repr

namespace BudgetTracker

/-- `BudgetTracker.__init__`: zero income, no expenses, the five default
categories. -/
def init : BudgetTracker :=
  { income := 0
    expenses := []
    categories := ["Rent", "Food", "Entertainment", "Transportation", "Miscellaneous"] }

/-- `add_income`: `self.income += amount`. -/
def add_income (t : BudgetTracker) (amount : ℚ) : BudgetTracker :=
  { t with income := t.income + amount }

/-- `add_expense`: returns `False` without touching the state when the
category is not in `self.categories`; otherwise appends the new expense
record (timestamped with the injected clock `now`) and returns `True`. -/
def add_expense (t : BudgetTracker) (amount : ℚ) (category : String) (now : Nat) :
    Bool × BudgetTracker :=
  if category ∉ t.categories then
    (false, t)
  else
    (true, { t with expenses := t.expenses ++ [⟨amount, category, now⟩] })

/-- `view_expenses`: `return self.expenses`. -/
def view_expenses (t : BudgetTracker) : List Expense :=
  t.expenses

/-- `get_total_expenses`: the sum of the amount field over all recorded
expenses. -/
def get_total_expenses (t : BudgetTracker) : ℚ :=
  (t.expenses.map (·.amount)).sum

/-- `get_remaining_budget`: `self.income - total_expenses`. -/
def get_remaining_budget (t : BudgetTracker) : ℚ :=
  t.income - t.get_total_expenses

/-- Python `spending_by_category[k] += v` on an association list: adds `v`
to the value at the first occurrence of key `k`, or `none` when the key is
absent (a `KeyError` in Python). -/
def updateKey (m : List (String × ℚ)) (k : String) (v : ℚ) :
    Option (List (String × ℚ)) :=
  match m with
  | [] => none
  | (k', v') :: rest =>
    if k' = k then some ((k', v' + v) :: rest)
    else (updateKey rest k v).map (fun m' => (k', v') :: m')

/-- `view_spending_by_category`: starts from the dict comprehension
mapping every category of `self.categories` to 0, then folds the
per-expense increment of the expense category over the expenses; `none`
models the `KeyError` raised on a category absent from the dict. -/
def view_spending_by_category (t : BudgetTracker) :
    Option (List (String × ℚ)) :=
  t.expenses.foldlM (fun m e => updateKey m e.category e.amount)
    (t.categories.map (fun c => (c, (0 : ℚ))))

/-- The record returned by `spending_insights`. -/
structure Insights where
  total_income : ℚ
  total_expenses : ℚ
  remaining_budget : ℚ
  message : String
  status : String
deriving DecidableEq, Repr

/-- `spending_insights`: the strict-inequality ladder
`total_expenses > income` / `total_expenses > income * 0.8` / else. -/
def spending_insights (t : BudgetTracker) : Insights :=
  let total_expenses := t.get_total_expenses
  let remaining_budget := t.get_remaining_budget
  if total_expenses > t.income then
    { total_income := t.income, total_expenses := total_expenses
      remaining_budget := remaining_budget
      message := "Warning: You are overspending! Try to cut down on unnecessary expenses."
      status := "warning" }
  else if total_expenses > t.income * (4 / 5) then
    { total_income := t.income, total_expenses := total_expenses
      remaining_budget := remaining_budget
      message := "Caution: You are nearing your budget limit. Consider saving more."
      status := "caution" }
  else
    { total_income := t.income, total_expenses := total_expenses
      remaining_budget := remaining_budget
      message := "Great job! You are managing your budget well."
      status := "success" }

end BudgetTracker

/-- A mutating operation on the tracker. The query methods do not change
the state, so a run of the system is a fold of these two operations. -/
inductive Op where
  | addIncome (amount : ℚ)
  | addExpense (amount : ℚ) (category : String) (now : Nat)
deriving DecidableEq, Repr

/-- Apply one operation to a tracker state. -/
def applyOp (t : BudgetTracker) : Op → BudgetTracker
  | .addIncome a => t.add_income a
  | .addExpense a c n => (t.add_expense a c n).2

/-- Run a sequence of operations from a fresh tracker. -/
def run (ops : List Op) : BudgetTracker :=
  ops.foldl applyOp BudgetTracker.init

/-! ## Helper lemmas shared between claims -/

/-- The state component returned by `add_expense` keeps `income` unchanged
in both branches. -/
theorem add_expense_income (t : BudgetTracker) (a : ℚ) (c : String) (n : Nat) :
    (t.add_expense a c n).2.income = t.income := by
  unfold BudgetTracker.add_expense
  split <;> rfl

/-- The state component returned by `add_expense` keeps `categories`
unchanged in both branches. -/
theorem add_expense_categories (t : BudgetTracker) (a : ℚ) (c : String) (n : Nat) :
    (t.add_expense a c n).2.categories = t.categories := by
  unfold BudgetTracker.add_expense
  split <;> rfl

/-- Every operation keeps `categories` unchanged. -/
theorem applyOp_categories (t : BudgetTracker) (op : Op) :
    (applyOp t op).categories = t.categories := by
  cases op with
  | addIncome a => rfl
  | addExpense a c n => exact add_expense_categories t a c n

/-- The status field of `spending_insights`, written as a bare
conditional. -/
theorem spending_insights_status_def (t : BudgetTracker) :
    t.spending_insights.status =
      if t.get_total_expenses > t.income then "warning"
      else if t.get_total_expenses > t.income * (4 / 5) then "caution"
      else "success" := by
  simp only [BudgetTracker.spending_insights]
  split
  · rfl
  · split <;> rfl

/-! ## C1 -/

/-- C1: `spending_insights` classifies by the exact strict-inequality
ladder: status is warning iff total expenses strictly exceed income;
caution iff not warning and total expenses strictly exceed 0.8 times
income; success otherwise; and on the fresh ledger (zero income, no
expenses) the status is success. -/
theorem spending_insights_status_ladder (t : BudgetTracker) :
    (t.spending_insights.status = "warning" ↔ t.get_total_expenses > t.income)
    ∧ (t.spending_insights.status = "caution" ↔
        ¬ t.get_total_expenses > t.income
          ∧ t.get_total_expenses > t.income * (4 / 5))
    ∧ (t.spending_insights.status = "success" ↔
        ¬ t.get_total_expenses > t.income
          ∧ ¬ t.get_total_expenses > t.income * (4 / 5))
    ∧ BudgetTracker.init.spending_insights.status = "success" := by
  rw [spending_insights_status_def t, spending_insights_status_def BudgetTracker.init]
  refine ⟨?_, ?_, ?_, ?_⟩
  · by_cases h1 : t.get_total_expenses > t.income <;> by_cases h2 :
      t.get_total_expenses > t.income * (4 / 5) <;> simp [h1, h2]
  · by_cases h1 : t.get_total_expenses > t.income <;> by_cases h2 :
      t.get_total_expenses > t.income * (4 / 5) <;> simp [h1, h2]
  · by_cases h1 : t.get_total_expenses > t.income <;> by_cases h2 :
      t.get_total_expenses > t.income * (4 / 5) <;> simp [h1, h2]
  · norm_num [BudgetTracker.init, BudgetTracker.get_total_expenses]

/-! ## C3 -/

/-- C3: when the category is a member of `categories`, `add_expense`
returns true, appends exactly one new expense record with the given
amount, category and captured timestamp at the end of the sequence
(leaving all earlier entries unchanged), and the total expenses grow by
exactly the given amount. -/
theorem add_expense_valid (t : BudgetTracker) (amt : ℚ) (cat : String) (now : Nat)
    (h : cat ∈ t.categories) :
    (t.add_expense amt cat now).1 = true
    ∧ (t.add_expense amt cat now).2.expenses = t.expenses ++ [⟨amt, cat, now⟩]
    ∧ (t.add_expense amt cat now).2.get_total_expenses
        = t.get_total_expenses + amt := by
  unfold BudgetTracker.add_expense BudgetTracker.get_total_expenses
  simp [h]

/-- Witness for C3: adding a Food expense of 5 to the fresh tracker. -/
theorem add_expense_valid_witness :
    (BudgetTracker.init.add_expense 5 "Food" 0).1 = true
    ∧ (BudgetTracker.init.add_expense 5 "Food" 0).2.expenses
        = BudgetTracker.init.expenses ++ [⟨5, "Food", 0⟩]
    ∧ (BudgetTracker.init.add_expense 5 "Food" 0).2.get_total_expenses
        = BudgetTracker.init.get_total_expenses + 5 :=
  add_expense_valid BudgetTracker.init 5 "Food" 0 (by decide)

/-! ## C4 -/

/-- C4: when the category is not a member of `categories`, `add_expense`
returns false and the whole state is unchanged (same expense sequence,
same income, same categories): the failure performs no mutation. -/
theorem add_expense_invalid (t : BudgetTracker) (amt : ℚ) (cat : String) (now : Nat)
    (h : cat ∉ t.categories) :
    t.add_expense amt cat now = (false, t) := by
  unfold BudgetTracker.add_expense
  simp [h]

/-- Witness for C4: an unknown category is rejected on the fresh tracker
and the state is returned untouched. -/
theorem add_expense_invalid_witness :
    BudgetTracker.init.add_expense 100 "Groceries" 0 = (false, BudgetTracker.init) :=
  add_expense_invalid BudgetTracker.init 100 "Groceries" 0 (by decide)

/-! ## C5 -/

/-- C5: `get_remaining_budget` always equals income minus total expenses,
and a negative remaining budget is representable: a reachable state
(spending 50 on Rent with zero income) has remaining budget below zero. -/
theorem get_remaining_budget_spec :
    (∀ t : BudgetTracker, t.get_remaining_budget = t.income - t.get_total_expenses)
    ∧ (run [Op.addExpense 50 "Rent" 0]).get_remaining_budget < 0 := by
  constructor
  · intro t
    rfl
  · norm_num [run, applyOp, BudgetTracker.init, BudgetTracker.add_expense,
      BudgetTracker.get_remaining_budget, BudgetTracker.get_total_expenses]

/-! ## C2 -/

/-- Counterexample to C2 as stated: after adding income 1000 and a Rent
expense of 1000, total expenses equal total income with positive income,
yet the status is caution, not warning. -/
theorem exact_spend_status_counterexample :
    0 < (run [Op.addIncome 1000, Op.addExpense 1000 "Rent" 0]).income
    ∧ (run [Op.addIncome 1000, Op.addExpense 1000 "Rent" 0]).get_total_expenses
        = (run [Op.addIncome 1000, Op.addExpense 1000 "Rent" 0]).income
    ∧ (run [Op.addIncome 1000, Op.addExpense 1000 "Rent" 0]).spending_insights.status
        ≠ "warning"
    ∧ (run [Op.addIncome 1000, Op.addExpense 1000 "Rent" 0]).spending_insights.status
        = "caution" := by
  norm_num [run, applyOp, BudgetTracker.init, BudgetTracker.add_income,
    BudgetTracker.add_expense, BudgetTracker.get_total_expenses,
    BudgetTracker.spending_insights, BudgetTracker.get_remaining_budget]
  decide

/-- C2 amended: with positive income, spending exactly 0.8 times income
gives status success (the 80 percent threshold is exclusive, as claimed),
while spending exactly equal to income gives status caution (not warning:
the first strict test fails and the second strict test holds). -/
theorem spending_insights_boundaries (t : BudgetTracker) (h : 0 < t.income) :
    (t.get_total_expenses = t.income * (4 / 5) → t.spending_insights.status = "success")
    ∧ (t.get_total_expenses = t.income → t.spending_insights.status = "caution") := by
  rw [spending_insights_status_def t]
  constructor
  · intro he
    rw [he]
    have h1 : ¬ t.income * (4 / 5) > t.income := by nlinarith
    simp [h1, lt_irrefl]
  · intro he
    rw [he]
    have h2 : t.income > t.income * (4 / 5) := by nlinarith
    simp [h2, lt_irrefl]

/-- Concrete tracker used to instantiate the boundary theorem. -/
def boundaryTracker : BudgetTracker :=
  { income := 1000
    expenses := [⟨800, "Food", 0⟩]
    categories := ["Rent", "Food", "Entertainment", "Transportation", "Miscellaneous"] }

/-- Witness for the amended C2, at a tracker with income 1000. -/
theorem spending_insights_boundaries_witness :
    (boundaryTracker.get_total_expenses = boundaryTracker.income * (4 / 5) →
      boundaryTracker.spending_insights.status = "success")
    ∧ (boundaryTracker.get_total_expenses = boundaryTracker.income →
      boundaryTracker.spending_insights.status = "caution") :=
  spending_insights_boundaries boundaryTracker (by decide)

/-! ## C7 -/

/-- Counterexample to C7 as stated: `add_income` accepts a negative
amount, so a single operation from the fresh ledger makes `income`
negative and strictly smaller than it was. -/
theorem income_monotonic_counterexample :
    (run [Op.addIncome (-5)]).income = -5
    ∧ (run [Op.addIncome (-5)]).income < (run []).income := by
  norm_num [run, applyOp, BudgetTracker.init, BudgetTracker.add_income]

/-- Decidable guard: an operation either is not `addIncome` or adds a
non-negative amount. -/
def nonnegIncomeOp : Op → Bool
  | .addIncome a => decide (0 ≤ a)
  | .addExpense _ _ _ => true

/-- Folding guarded operations from a non-negative income keeps the
income non-negative. -/
theorem foldl_income_nonneg (ops : List Op) :
    ∀ t : BudgetTracker, 0 ≤ t.income →
      (∀ op ∈ ops, nonnegIncomeOp op = true) →
      0 ≤ (ops.foldl applyOp t).income := by
  induction ops with
  | nil =>
    intro t ht _
    exact ht
  | cons op rest ih =>
    intro t ht h
    rw [List.foldl_cons]
    apply ih
    · cases op with
      | addIncome a =>
        have ha : 0 ≤ a := by
          have := h _ (List.mem_cons_self _ _)
          simpa [nonnegIncomeOp] using this
        simp only [applyOp, BudgetTracker.add_income]
        exact add_nonneg ht ha
      | addExpense a c n =>
        simp only [applyOp]
        rw [add_expense_income]
        exact ht
    · intro op hop
      exact h op (List.mem_cons_of_mem _ hop)

/-- C7 amended: under runs whose `addIncome` amounts are all
non-negative, income is non-negative; a further `addIncome` of a
non-negative amount never decreases it; and `addExpense` (the only other
mutating operation) leaves income unchanged, so only `addIncome` mutates
income. Unguarded, the claim fails: see the counterexample with
`addIncome (-5)`. -/
theorem income_nonneg_only_addIncome (ops : List Op) (a amt : ℚ) (cat : String)
    (now : Nat) (h : ∀ op ∈ ops, nonnegIncomeOp op = true) (ha : 0 ≤ a) :
    0 ≤ (run ops).income
    ∧ (run ops).income ≤ (applyOp (run ops) (Op.addIncome a)).income
    ∧ (applyOp (run ops) (Op.addExpense amt cat now)).income = (run ops).income := by
  refine ⟨?_, ?_, ?_⟩
  · exact foldl_income_nonneg ops BudgetTracker.init (by norm_num [BudgetTracker.init]) h
  · simp only [applyOp, BudgetTracker.add_income]
    linarith
  · simp only [applyOp]
    exact add_expense_income _ _ _ _

/-- Witness for the amended C7, on a two-operation run. -/
theorem income_nonneg_only_addIncome_witness :
    0 ≤ (run [Op.addIncome 10, Op.addExpense 3 "Food" 0]).income
    ∧ (run [Op.addIncome 10, Op.addExpense 3 "Food" 0]).income
        ≤ (applyOp (run [Op.addIncome 10, Op.addExpense 3 "Food" 0])
            (Op.addIncome 2)).income
    ∧ (applyOp (run [Op.addIncome 10, Op.addExpense 3 "Food" 0])
        (Op.addExpense 7 "Rent" 1)).income
        = (run [Op.addIncome 10, Op.addExpense 3 "Food" 0]).income :=
  income_nonneg_only_addIncome [Op.addIncome 10, Op.addExpense 3 "Food" 0]
    2 7 "Rent" 1 (by decide) (by decide)

/-! ## C8 -/

/-- Folding a list of `addIncome` operations adds the list sum to the
income. -/
theorem foldl_addIncome_income (l : List ℚ) :
    ∀ t : BudgetTracker,
      ((l.map Op.addIncome).foldl applyOp t).income = t.income + l.sum := by
  induction l with
  | nil =>
    intro t
    simp
  | cons a rest ih =>
    intro t
    simp only [List.map_cons, List.foldl_cons, applyOp, BudgetTracker.add_income]
    rw [ih]
    rw [List.sum_cons, add_assoc]

/-- C8: after any sequence of `addIncome` calls from a fresh tracker, the
income equals the sum of the amounts, and any permutation of the calls
produces the same income (order independence of accumulation). -/
theorem addIncome_totals_sum (l l2 : List ℚ) (hperm : l.Perm l2) :
    (run (l.map Op.addIncome)).income = l.sum
    ∧ (run (l.map Op.addIncome)).income = (run (l2.map Op.addIncome)).income := by
  have h1 := foldl_addIncome_income l BudgetTracker.init
  have h2 := foldl_addIncome_income l2 BudgetTracker.init
  constructor
  · rw [run, h1]
    norm_num [BudgetTracker.init]
  · rw [run, run, h1, h2, hperm.sum_eq]

/-- Witness for C8, on the permuted amount lists [3, 4] and [4, 3]. -/
theorem addIncome_totals_sum_witness :
    (run ([3, 4].map Op.addIncome)).income = [(3 : ℚ), 4].sum
    ∧ (run ([3, 4].map Op.addIncome)).income
        = (run ([4, 3].map Op.addIncome)).income :=
  addIncome_totals_sum [3, 4] [4, 3] (by decide)

/-! ## Association-list lemmas for the category dict -/

/-- On a duplicate-free association list containing the key, `updateKey`
succeeds and adds `v` at that key, leaving every other entry alone. -/
theorem updateKey_eq_of_mem (k : String) (v : ℚ) :
    ∀ m : List (String × ℚ), (m.map Prod.fst).Nodup → k ∈ m.map Prod.fst →
      BudgetTracker.updateKey m k v
        = some (m.map fun p => if p.1 = k then (p.1, p.2 + v) else p) := by
  intro m
  induction m with
  | nil =>
    intro _ hk
    simp at hk
  | cons hd rest ih =>
    intro hnd hk
    obtain ⟨k1, v1⟩ := hd
    rw [List.map_cons] at hnd hk
    by_cases hkk : k1 = k
    · subst hkk
      have hnotin : ∀ p ∈ rest, p.1 ≠ k1 := by
        intro p hp hpk
        have hmem : p.1 ∈ rest.map Prod.fst := List.mem_map_of_mem Prod.fst hp
        rw [hpk] at hmem
        exact (List.nodup_cons.mp hnd).1 hmem
      have hrest : rest.map (fun p => if p.1 = k1 then (p.1, p.2 + v) else p) = rest := by
        rw [List.map_congr_left (fun p hp => if_neg (hnotin p hp))]
        simp
      unfold BudgetTracker.updateKey
      simp [hrest]
    · have hk2 : k ∈ rest.map Prod.fst := by
        rcases List.mem_cons.mp hk with h | h
        · exact absurd h.symm hkk
        · exact h
      have hnd2 : (rest.map Prod.fst).Nodup := (List.nodup_cons.mp hnd).2
      unfold BudgetTracker.updateKey
      rw [if_neg hkk, ih hnd2 hk2]
      simp [hkk]

/-- Folding the per-expense dict increment over a duplicate-free
association list whose keys cover all the expense categories succeeds and
adds, at every key, the sum of the amounts of the expenses in that
category. -/
theorem foldlM_updateKey_eq (es : List Expense) :
    ∀ m : List (String × ℚ), (m.map Prod.fst).Nodup →
      (∀ e ∈ es, e.category ∈ m.map Prod.fst) →
      es.foldlM (fun m2 e => BudgetTracker.updateKey m2 e.category e.amount) m
        = some (m.map fun p =>
            (p.1, p.2 + ((es.filter (fun e => e.category = p.1)).map (·.amount)).sum)) := by
  induction es with
  | nil =>
    intro m _ _
    simp
  | cons e rest ih =>
    intro m hnd hmem
    rw [List.foldlM_cons]
    have hcat : e.category ∈ m.map Prod.fst := hmem e (List.mem_cons_self _ _)
    rw [updateKey_eq_of_mem _ _ m hnd hcat]
    have hkeys : (m.map fun p => if p.1 = e.category then (p.1, p.2 + e.amount) else p).map
        Prod.fst = m.map Prod.fst := by
      rw [List.map_map]
      apply List.map_congr_left
      intro p _
      by_cases hpe : p.1 = e.category <;> simp [hpe]
    have hbind :
        (some (m.map fun p => if p.1 = e.category then (p.1, p.2 + e.amount) else p)
            >>= fun m2 =>
              rest.foldlM (fun m3 e2 => BudgetTracker.updateKey m3 e2.category e2.amount) m2)
          = rest.foldlM (fun m3 e2 => BudgetTracker.updateKey m3 e2.category e2.amount)
              (m.map fun p => if p.1 = e.category then (p.1, p.2 + e.amount) else p) := rfl
    rw [hbind, ih _ (hkeys ▸ hnd) (fun e2 he2 => hkeys ▸ hmem e2 (List.mem_cons_of_mem _ he2))]
    congr 1
    rw [List.map_map]
    apply List.map_congr_left
    intro p _
    by_cases hpe : p.1 = e.category
    · have hfe : e.category = p.1 := hpe.symm
      simp [Function.comp, List.filter_cons, hfe, add_assoc]
    · have hfe : ¬ e.category = p.1 := fun h => hpe h.symm
      simp [Function.comp, hpe, List.filter_cons, hfe]

/-! ## C6 -/

/-- C6: when the category list is duplicate-free (it is a set) and every
recorded expense carries a valid category (the data-model invariant),
`view_spending_by_category` returns the mapping whose keys are exactly
the categories in their original order, each mapped to the sum of the
amounts of the expenses in that category, with untouched categories at 0
(the sum over the empty filter). -/
theorem view_spending_by_category_spec (t : BudgetTracker)
    (hnd : t.categories.Nodup)
    (hval : ∀ e ∈ t.expenses, e.category ∈ t.categories) :
    t.view_spending_by_category
      = some (t.categories.map fun c =>
          (c, ((t.expenses.filter (fun e => e.category = c)).map (·.amount)).sum)) := by
  unfold BudgetTracker.view_spending_by_category
  have hkeys : (t.categories.map (fun c => (c, (0 : ℚ)))).map Prod.fst = t.categories := by
    rw [List.map_map, show (Prod.fst ∘ fun c : String => (c, (0 : ℚ))) = id from rfl,
      List.map_id]
  have hnd2 : ((t.categories.map (fun c => (c, (0 : ℚ)))).map Prod.fst).Nodup := by
    rw [hkeys]
    exact hnd
  have hval2 : ∀ e ∈ t.expenses,
      e.category ∈ (t.categories.map (fun c => (c, (0 : ℚ)))).map Prod.fst := by
    intro e he
    rw [hkeys]
    exact hval e he
  rw [foldlM_updateKey_eq t.expenses _ hnd2 hval2]
  congr 1
  rw [List.map_map]
  apply List.map_congr_left
  intro c _
  simp [Function.comp]

/-- Witness for C6, on a reachable tracker with two Food expenses and one
Rent expense. -/
theorem view_spending_by_category_spec_witness :
    (run [Op.addIncome 100, Op.addExpense 30 "Food" 0, Op.addExpense 20 "Food" 1,
        Op.addExpense 10 "Rent" 2]).view_spending_by_category
      = some ((run [Op.addIncome 100, Op.addExpense 30 "Food" 0, Op.addExpense 20 "Food" 1,
          Op.addExpense 10 "Rent" 2]).categories.map fun c =>
            (c, (((run [Op.addIncome 100, Op.addExpense 30 "Food" 0, Op.addExpense 20 "Food" 1,
              Op.addExpense 10 "Rent" 2]).expenses.filter
                (fun e => e.category = c)).map (·.amount)).sum)) :=
  view_spending_by_category_spec _ (by decide) (by decide)

/-! ## C10 -/

/-- Folding operations preserves the category list. -/
theorem foldl_categories (ops : List Op) :
    ∀ t : BudgetTracker, (ops.foldl applyOp t).categories = t.categories := by
  induction ops with
  | nil =>
    intro t
    rfl
  | cons op rest ih =>
    intro t
    rw [List.foldl_cons, ih, applyOp_categories]

/-- Folding operations preserves the invariant that every recorded
expense carries a category from the category list: `add_expense` only
appends after its membership check. -/
theorem foldl_expenses_valid (ops : List Op) :
    ∀ t : BudgetTracker, (∀ e ∈ t.expenses, e.category ∈ t.categories) →
      ∀ e ∈ (ops.foldl applyOp t).expenses, e.category ∈ (ops.foldl applyOp t).categories := by
  induction ops with
  | nil =>
    intro t ht
    exact ht
  | cons op rest ih =>
    intro t ht
    rw [List.foldl_cons]
    apply ih
    cases op with
    | addIncome a => exact ht
    | addExpense a c n =>
      intro e he
      rw [applyOp] at he ⊢
      rw [add_expense_categories]
      by_cases hc : c ∈ t.categories
      · simp only [BudgetTracker.add_expense, hc, not_true_eq_false, if_neg,
          not_false_eq_true] at he
        rcases List.mem_append.mp he with h | h
        · exact ht e h
        · have : e = ⟨a, c, n⟩ := by simpa using h
          rw [this]
          exact hc
      · simp only [BudgetTracker.add_expense, hc, not_false_eq_true, if_pos] at he
        exact ht e he

/-- C10: on every state reachable from the fresh tracker, every recorded
expense has a category belonging to the category list, and therefore
`view_spending_by_category` succeeds (the Python `KeyError` branch of the
per-category accumulation is unreachable). -/
theorem reachable_expenses_valid (ops : List Op) :
    (∀ e ∈ (run ops).expenses, e.category ∈ (run ops).categories)
    ∧ ((run ops).view_spending_by_category).isSome = true := by
  have hinv : ∀ e ∈ (run ops).expenses, e.category ∈ (run ops).categories := by
    apply foldl_expenses_valid
    intro e he
    simp [BudgetTracker.init] at he
  refine ⟨hinv, ?_⟩
  have hcats : (run ops).categories = BudgetTracker.init.categories :=
    foldl_categories ops BudgetTracker.init
  have hnd : (run ops).categories.Nodup := by
    rw [hcats]
    decide
  have hkeys : ((run ops).categories.map (fun c => (c, (0 : ℚ)))).map Prod.fst
      = (run ops).categories := by
    rw [List.map_map, show (Prod.fst ∘ fun c : String => (c, (0 : ℚ))) = id from rfl,
      List.map_id]
  have hnd2 : (((run ops).categories.map (fun c => (c, (0 : ℚ)))).map Prod.fst).Nodup := by
    rw [hkeys]
    exact hnd
  have hinv2 : ∀ e ∈ (run ops).expenses,
      e.category ∈ ((run ops).categories.map (fun c => (c, (0 : ℚ)))).map Prod.fst := by
    intro e he
    rw [hkeys]
    exact hinv e he
  unfold BudgetTracker.view_spending_by_category
  rw [foldlM_updateKey_eq (run ops).expenses _ hnd2 hinv2]
  rfl

/-! ## C9 -/

/-- C9 (code evaluation): `view_expenses` returns exactly the internal
expense sequence, in insertion order. In the Python source the returned
value is the internal list object itself, not a copy, so a caller can
mutate the ledger through it; the read-only requirement of the claim is a
reference-semantics property that the code does not provide. -/
theorem view_expenses_returns_internal (t : BudgetTracker) :
    t.view_expenses = t.expenses := rfl
